import Mathlib

/-!
Verification of the Ferro signal-processing pipeline (ferro/HysteresisData.py and
ferro/LandauFilm.py) against its natural-language specification.

The Python code is embedded shallowly over the rationals: numpy float arrays become
`List ℚ`, masked arrays become `List (Option ℚ)` (with `none` for masked cells), and
code paths that can raise a Python exception are modelled with `Except String`.
Randomness (`np.random.choice`) is modelled by passing the list of drawn indices
explicitly; the constraint that `choice` only returns indices of nonzero probability
appears as a hypothesis where needed.
-/

namespace Ferro

/-- Arithmetic mean of a list, `np.mean`.  For the empty list numpy returns NaN;
here the Lean convention `0 / 0 = 0` applies, and theorems that depend on the
value only use nonempty lists. -/
def mean (l : List ℚ) : ℚ := l.sum / (l.length : ℚ)

/-- Successive differences, `np.diff`: output j is `l[j+1] - l[j]`. -/
def diffL (l : List ℚ) : List ℚ := List.zipWith (fun a b => b - a) l l.tail

/-- Sign function, `np.sign` (vanishing at 0). -/
def sgn (x : ℚ) : ℚ := if x < 0 then -1 else if x = 0 then 0 else 1

/-- Maximum of a list, Python `max` / `np.max`.  Python raises on an empty
sequence; the claims below only evaluate this on nonempty lists. -/
def maxL : List ℚ → ℚ
  | [] => 0
  | x :: xs => xs.foldl max x

/-- Minimum of a list, Python `min` / `np.min`. -/
def minL : List ℚ → ℚ
  | [] => 0
  | x :: xs => xs.foldl min x

/-- Median of a list, `np.median`: middle element of the sorted list, or the
average of the two middle elements for even length. -/
def median (l : List ℚ) : ℚ :=
  let s := List.insertionSort (fun a b : ℚ => a ≤ b) l
  let n := l.length
  if n = 0 then 0
  else if n % 2 = 1 then s.getD (n / 2) 0
  else (s.getD (n / 2 - 1) 0 + s.getD (n / 2) 0) / 2

/-- Measurement sample (class HysteresisData, HysteresisData.py): parallel arrays
of time, voltage, current and polarization plus dt and geometry metadata. -/
structure HystData where
  time : List ℚ
  voltage : List ℚ
  current : List ℚ
  polarization : List ℚ
  dt : ℚ
  thickness : ℚ
  area : ℚ

/-- Fitted coefficients of the leakage model (the 7 parameters of leakage_func). -/
structure LcmParms where
  a : ℚ
  b : ℚ
  c : ℚ
  d : ℚ
  e : ℚ
  f : ℚ
  g : ℚ

/-- Leakage sample (class LeakageData, HysteresisData.py).  `lcmParms = none`
models the unfit state (`lcmParms == []` in the Python source). -/
structure LeakageData where
  lcmVoltage : List ℚ
  lcmCurrent : List ℚ
  lcmParms : Option LcmParms

/-- Film model (class LandauFilm, LandauFilm.py): thickness, area, capacitance and
remnant polarization. -/
structure LandauFilm where
  thickness : ℚ
  area : ℚ
  c : ℚ
  pr : ℚ

/-- Ferroelectric domain (class LandauDomain, LandauFilm.py), restricted to the
fields the Preisach simulator and domain generator use. -/
structure LandauDomain where
  pr : ℚ
  ec : ℚ
  ebias : ℚ
  area : ℚ

/-- Default domain used as the `getD` fallback in statements about lists of
domains; all such accesses are guarded by length hypotheses. -/
def dDomain : LandauDomain := { pr := 0, ec := 0, ebias := 0, area := 0 }

/-- leakage_func (HysteresisData.py line 25): fifth-order polynomial in the
shifted voltage `x - g`. -/
def leakage_func (p : LcmParms) (x : ℚ) : ℚ :=
  p.a * (x - p.g) ^ 5 + p.b * (x - p.g) ^ 4 + p.c * (x - p.g) ^ 3 +
    p.d * (x - p.g) ^ 2 + p.e * (x - p.g) + p.f

/-- Warning text issued by leakage_compensation when the leakage model is unfit. -/
def lcmFitWarning : String :=
  "Please run lcm_fit on the Leakage Data before attempting compensation."

/-- Re-integration of a corrected current into polarization
(HysteresisData.py lines 375-380 and LandauFilm.py lines 136-141):
`testpol = np.zeros(len(current))`, then for `i >= 1`,
`testpol[i] = testpol[i-1] + current[i]*dt/area` (entry 0 of the current is
skipped). -/
def integrateCurrent (cur : List ℚ) (dt area : ℚ) : List ℚ :=
  match cur with
  | [] => []
  | _ :: rest => List.scanl (fun acc i => acc + i * dt / area) 0 rest

/-- HysteresisData.leakage_compensation (HysteresisData.py lines 345-387).
Returns the derived sample together with the list of warnings issued
(`warn(...)` in the source is non-fatal).  With an unfit model the input sample
is returned unchanged; otherwise the modelled leakage is subtracted pointwise,
the mean of the residual is removed, and polarization is re-integrated and
re-centred. -/
def leakage_compensation (d : HystData) (ld : LeakageData) : HystData × List String :=
  match ld.lcmParms with
  | none => (d, [lcmFitWarning])
  | some parms =>
    let cur0 := List.zipWith (fun i v => i - leakage_func parms v) d.current d.voltage
    let cur1 := cur0.map (fun i => i - mean cur0)
    let testpol := integrateCurrent cur1 d.dt d.area
    let offset := maxL testpol - (maxL testpol - minL testpol) / 2
    ({ d with current := cur1, polarization := testpol.map (fun q => q - offset) }, [])

/-- Mean absolute voltage slew rate of a sample,
`np.mean(np.abs(np.diff(d.voltage)/d.dt))` (LandauFilm.py lines 73 and 124). -/
def dvdtOf (d : HystData) : ℚ := mean ((diffL d.voltage).map (fun x => |x / d.dt|))

/-- Capacitive displacement current floor `icap = c * dvdt`
(LandauFilm.py line 126). -/
def icapOf (film : LandauFilm) (d : HystData) : ℚ := film.c * dvdtOf d

/-- LandauFilm.cCompensation (LandauFilm.py lines 103-153): subtracts the
capacitive floor from each current sample (zeroing samples below the floor),
re-integrates the polarization, and returns the derived sample together with the
remnant polarization `pr = (max(P) - min(P))/2`. -/
def cCompensation (film : LandauFilm) (d : HystData) : HystData × ℚ :=
  let icap := icapOf film d
  let cur1 := d.current.map (fun i => if icap ≤ |i| then i - sgn i * icap else 0)
  let testpol := integrateCurrent cur1 d.dt d.area
  let pr := (maxL testpol - minL testpol) / 2
  let offset := maxL testpol - (maxL testpol - minL testpol) / 2
  ({ d with current := cur1, polarization := testpol.map (fun q => q - offset) }, pr)

/-- Median absolute current of a sample, `np.median(np.abs(d.current))`
(LandauFilm.py line 74). -/
def medAbsI (d : HystData) : ℚ := median (d.current.map (fun i => |i|))

/-- Sum of squared deviations from the mean of the x data (the variance numerator
of a degree-1 least-squares fit). -/
def sxxOf (x : List ℚ) : ℚ := (x.map (fun xi => (xi - mean x) ^ 2)).sum

/-- Full-rank degree-1 least-squares slope, the value of `np.polyfit(x, y, 1)[0]`
when the x data are not all equal. -/
def lsSlope (x y : List ℚ) : ℚ :=
  (List.zipWith (fun xi yi => (xi - mean x) * (yi - mean y)) x y).sum / sxxOf x

/-- Slope coefficient of `np.polyfit(x, y, 1)`.  When the x values are not all
equal this is the ordinary least-squares slope.  When they are all equal (the
rank-deficient case, e.g. a single data point) numpy does NOT raise: `lstsq`
truncates the zero singular value, emits a non-fatal RankWarning, and returns
the minimum-norm solution of the column-scaled system, whose slope works out to
`mean(y) / (2 * x0)` for common x value `x0` (undefined for `x0 = 0`, which no
theorem below relies on). -/
def polyfit1_slope (x y : List ℚ) : ℚ :=
  if sxxOf x = 0 then mean y / (2 * mean x) else lsSlope x y

/-- LandauFilm.cCalc (LandauFilm.py lines 38-101), with the file-loading
collaborator abstracted away: the input is the list of parsed HysteresisData
objects.  Computes each sample's mean absolute dV/dt and median absolute
current, fits a degree-1 polynomial, and returns its slope `iFit[0]` as the
capacitance.  There is no validation of the number of samples: the slope is
printed and returned unconditionally. -/
def cCalc (files : List HystData) : ℚ :=
  polyfit1_slope (files.map dvdtOf) (files.map medAbsI)

/-- Local extrema of the voltage sweep (HysteresisData.py lines 598-608):
indices `i` with `1 <= i <= n-3` that are strict local minima (resp. maxima).
(The Python loop skips `i = 0` and breaks at `i = n-2` before comparing.) -/
def findExtrema (v : List ℚ) : List ℕ × List ℕ :=
  let idxs := (List.range (v.length - 2)).drop 1
  (idxs.filter (fun i =>
      decide (v.getD i 0 < v.getD (i - 1) 0) && decide (v.getD i 0 < v.getD (i + 1) 0)),
   idxs.filter (fun i =>
      decide (v.getD (i - 1) 0 < v.getD i 0) && decide (v.getD (i + 1) 0 < v.getD i 0)))

/-- Message of the ValueError raised when fewer than two minima are found
(HysteresisData.py line 611). -/
def forcMinimaMsg : String :=
  "Could not find two minima for FORC calculation. Aborting."

/-- Message of the IndexError raised by an out-of-range list access. -/
def indexErrMsg : String := "IndexError: list index out of range"

/-- One reversal-curve span of the FORC loop: the constant reversal-voltage
segment `vr`, the voltage segment `v` and the polarization segment `p`. -/
structure Span where
  vr : List ℚ
  v : List ℚ
  p : List ℚ
  deriving DecidableEq

/-- Default span used as a `getD` fallback. -/
def dSpan : Span := { vr := [], v := [], p := [] }

/-- Decidable equality for `Except`, used to evaluate the embedded fallible
computations on concrete inputs. -/
instance exceptDecEq {e a : Type} [DecidableEq e] [DecidableEq a] :
    DecidableEq (Except e a)
  | Except.ok x, Except.ok y =>
    if h : x = y then isTrue (by rw [h])
    else isFalse (by intro hh; cases hh; exact h rfl)
  | Except.ok _, Except.error _ => isFalse (by intro hh; cases hh)
  | Except.error _, Except.ok _ => isFalse (by intro hh; cases hh)
  | Except.error x, Except.error y =>
    if h : x = y then isTrue (by rw [h])
    else isFalse (by intro hh; cases hh; exact h rfl)

/-- Span-construction loop of forc_calc (HysteresisData.py lines 616-619),
starting from loop counter `i`.  For the minimum at index `v` it reads
`maximaIndex[i+1]` (IndexError when out of range, which this embedding
surfaces as `Except.error`), then emits
`[voltage[v-1]] * (maximaIndex[i+1] - v)` as the reversal-voltage segment and
the slices `voltage[v:maximaIndex[i+1]]`, `polarization[v:maximaIndex[i+1]]`. -/
def forcSegsFrom (voltage pol : List ℚ) (maxs : List ℕ) :
    ℕ → List ℕ → Except String (List Span)
  | _, [] => Except.ok []
  | i, v :: rest =>
    match maxs.get? (i + 1) with
    | none => Except.error indexErrMsg
    | some m =>
      match forcSegsFrom voltage pol maxs (i + 1) rest with
      | Except.error msg => Except.error msg
      | Except.ok tail =>
        Except.ok ({ vr := List.replicate (m - v) (voltage.getD (v - 1) 0),
                     v := (voltage.drop v).take (m - v),
                     p := (pol.drop v).take (m - v) } :: tail)

/-- Reversal-curve extraction phase of HysteresisData.forc_calc
(HysteresisData.py lines 598-622): finds extrema, checks for at least two
minima, builds the spans, concatenates them, and converts voltages to fields by
dividing by the thickness.  Returns `(eFORC, erFORC, pFORC)`.  The subsequent
griddata interpolation and gradient steps use external collaborators and are
modelled separately by `normalizeFORC`. -/
def forc_calc_spans (d : HystData) : Except String (List ℚ × List ℚ × List ℚ) :=
  if (findExtrema d.voltage).1.length < 2 then Except.error forcMinimaMsg
  else
    match forcSegsFrom d.voltage d.polarization (findExtrema d.voltage).2 0
        (findExtrema d.voltage).1 with
    | Except.error msg => Except.error msg
    | Except.ok segs =>
      Except.ok (((segs.map Span.v).flatten).map (fun x => x / d.thickness),
                 ((segs.map Span.vr).flatten).map (fun x => x / d.thickness),
                 (segs.map Span.p).flatten)

/-- Absolute value of a masked-grid cell; `none` models a masked entry, which
`np.sum` over a masked array skips (counts as 0). -/
def cellAbs : Option ℚ → ℚ
  | none => 0
  | some x => |x|

/-- Value of a masked-grid cell for summation purposes (masked cells count 0). -/
def cellVal : Option ℚ → ℚ
  | none => 0
  | some x => x

/-- Total `np.sum(abs(dEdEr))` over the non-masked cells of a masked grid
(HysteresisData.py line 640). -/
def forcTotal (g : List (List (Option ℚ))) : ℚ :=
  (g.map (fun row => (row.map cellAbs).sum)).sum

/-- Sum of a masked grid over its non-masked cells. -/
def maskedSum (g : List (List (Option ℚ))) : ℚ :=
  (g.map (fun row => (row.map cellVal).sum)).sum

/-- Normalization step of forc_calc (HysteresisData.py line 640):
`prob = abs(dEdEr) / np.sum(abs(dEdEr))`.  Elementwise abs and scalar division
preserve the mask. -/
def normalizeFORC (g : List (List (Option ℚ))) : List (List (Option ℚ)) :=
  g.map (fun row => row.map (Option.map (fun x => |x| / forcTotal g)))

/-- LandauFilm.domainGen (LandauFilm.py lines 155-224).  `draws` is the list of
flat indices produced by the `n` calls to `np.random.choice(index, p=probf)`
(so `n = draws.length`); `prob` is the mask-filled probability grid
(`np.ma.filled(prob, 0)`).  Each drawn flat index `j` is mapped to the grid
point `(e[j % ncols], er[j / ncols])`, and a domain with
`ec = (E - Er)/2`, `ebias = (E + Er)/2`, `area = film.area / n` and the film's
`pr` is produced; the parameter matrix `(E, Er, ec, ebias)` is returned
alongside. -/
def domainGen (film : LandauFilm) (e er : List ℚ) (prob : List (List ℚ))
    (draws : List ℕ) : List LandauDomain × List (ℚ × ℚ × ℚ × ℚ) :=
  let ncols := prob.headI.length
  (draws.map (fun j =>
    let eg := e.getD (j % ncols) 0
    let erg := er.getD (j / ncols) 0
    { pr := film.pr, ec := (eg - erg) / 2, ebias := (eg + erg) / 2,
      area := film.area / (draws.length : ℚ) }),
   draws.map (fun j =>
    let eg := e.getD (j % ncols) 0
    let erg := er.getD (j / ncols) 0
    (eg, erg, (eg - erg) / 2, (eg + erg) / 2)))

/-- Message of the ValueError numpy raises when the truth value of a
multi-element boolean array is demanded (`if initState == None` with an array
of more than one element, LandauFilm.py line 263). -/
def ambiguousTruthMsg : String :=
  "ValueError: The truth value of an array with more than one element is ambiguous. Use a.any() or a.all()"

/-- Message of the ValueError `np.gradient` raises on arrays with fewer than
two elements. -/
def gradientSizeMsg : String :=
  "ValueError: Shape of array too small to calculate a numerical gradient"

/-- Interior/tail of `np.gradient`: given the element `p` two positions back and
the previous element `c`, emits central differences `(next - p)/2` until the
final element, which gets the one-sided difference `c - p` (with `p` then being
the second-to-last element). -/
def npGradientAux (p c : ℚ) : List ℚ → List ℚ
  | [] => [c - p]
  | n :: rest => (n - p) / 2 :: npGradientAux c n rest

/-- Discrete gradient `np.gradient` with unit spacing: one-sided differences at
the two edges, central differences `(l[j+1] - l[j-1])/2` in the interior.  Only
evaluated on lists of length at least 2 (numpy raises otherwise; the caller
models that check). -/
def npGradient : List ℚ → List ℚ
  | [] => []
  | [_] => []
  | p :: c :: rest => (c - p) :: npGradientAux p c rest

/-- One step of the Preisach sweep (LandauFilm.py lines 271-278): at field `e`
with local sweep direction `dir`, a domain's state flips to +1 when the
direction is positive and `e >= ec + ebias`, flips to -1 when the direction is
negative and `e <= -ec + ebias`, and is otherwise unchanged. -/
def preisachStep (doms : List LandauDomain) (e dir : ℚ) (state : List ℚ) : List ℚ :=
  List.zipWith (fun d s =>
    if 0 < dir then (if d.ec + d.ebias ≤ e then 1 else s)
    else if dir < 0 then (if e ≤ -d.ec + d.ebias then -1 else s)
    else s) doms state

/-- Net charge at one step (LandauFilm.py line 280): sum over domains of
`pr * area * state`. -/
def filmCharge (doms : List LandauDomain) (state : List ℚ) : ℚ :=
  (List.zipWith (fun d s => d.pr * d.area * s) doms state).sum

/-- The Preisach sweep loop: threads the state through the steps, recording the
net charge after each step's updates. -/
def preisachRun (doms : List LandauDomain) :
    List (ℚ × ℚ) → List ℚ → List ℚ × List ℚ
  | [], st => ([], st)
  | (e, dir) :: rest, st =>
    let st' := preisachStep doms e dir st
    let r := preisachRun doms rest st'
    (filmCharge doms st' :: r.1, r.2)

/-- Body of LandauFilm.calcEfePreisach after the initial-state check
(LandauFilm.py lines 268-296): `np.gradient` raises for sweeps shorter than 2;
reading `state[i]` raises IndexError when the supplied state is shorter than
the domain list (the sweep loop does run, since the sweep has length >= 2);
otherwise the loop runs and the charges are divided by the film area. -/
def calcEfePreisachFrom (film : LandauFilm) (esweep : List ℚ)
    (doms : List LandauDomain) (state : List ℚ) : Except String (List ℚ × List ℚ) :=
  if esweep.length < 2 then Except.error gradientSizeMsg
  else if state.length < doms.length then Except.error indexErrMsg
  else
    let r := preisachRun doms (esweep.zip (npGradient esweep)) state
    Except.ok (r.1.map (fun q => q / film.area), r.2)

/-- LandauFilm.calcEfePreisach (LandauFilm.py lines 247-296).  The sentinel
check `if initState == None` is an elementwise numpy comparison: with an array
of two or more elements its truth value is ambiguous and numpy raises a
ValueError; with no array (`None`) it selects the default all-(-1) state; with
a single-element array the comparison collapses to False and the supplied state
is used. -/
def calcEfePreisach (film : LandauFilm) (esweep : List ℚ) (doms : List LandauDomain)
    (initState : Option (List ℚ)) : Except String (List ℚ × List ℚ) :=
  match initState with
  | none => calcEfePreisachFrom film esweep doms (List.replicate doms.length (-1))
  | some s =>
    if 2 ≤ s.length then Except.error ambiguousTruthMsg
    else calcEfePreisachFrom film esweep doms s

/-! Concrete example data used to instantiate the theorems below. -/

/-- Unit film (area 1, pr 1) for the Preisach square-loop scenario. -/
def squareFilm : LandauFilm := { thickness := 1, area := 1, c := 0, pr := 1 }

/-- Single hysteron with `ec = 1`, `ebias = 0`, `pr = 1`, covering the whole film. -/
def squareDomain : LandauDomain := { pr := 1, ec := 1, ebias := 0, area := 1 }

/-- Triangular bipolar field sweep from -2 up to +2 and back to -2 in steps of 1/2. -/
def squareSweep : List ℚ :=
  [-2, -3/2, -1, -1/2, 0, 1/2, 1, 3/2, 2, 3/2, 1, 1/2, 0, -1/2, -1, -3/2, -2]

/-- Expected polarization output of the square loop: -1 until the field first
reaches +1 on the upsweep, +1 until the field first reaches -1 on the
downsweep, then -1 again. -/
def squareP : List ℚ :=
  [-1, -1, -1, -1, -1, -1, 1, 1, 1, 1, 1, 1, 1, 1, -1, -1, -1]

/-- Minor loop from -2 up to only +1/2 (below the +1 threshold) and back. -/
def minorSweep : List ℚ :=
  [-2, -3/2, -1, -1/2, 0, 1/2, 0, -1/2, -1, -3/2, -2]

/-- FORC measurement with minima at indices 2 and 4 (voltages -1 and -2) and
maxima at indices 1, 3 and 5; the sample before each minimum has voltage 2. -/
def forcEx : HystData :=
  { time := [], voltage := [0, 2, -1, 2, -2, 2, 0, 0], current := [],
    polarization := [0, 1, 2, 3, 4, 5, 6, 7], dt := 1, thickness := 1, area := 1 }

/-- Detected minima of `forcEx` (equals `[2, 4]`). -/
def c5Mins : List ℕ := (findExtrema forcEx.voltage).1

/-- Detected maxima of `forcEx` (equals `[1, 3, 5]`). -/
def c5Maxs : List ℕ := (findExtrema forcEx.voltage).2

/-- The two spans forc_calc builds from `forcEx`. -/
def segsEx : List Span :=
  [{ vr := [2], v := [-1], p := [2] }, { vr := [2], v := [-2], p := [4] }]

/-- Voltage sweep with two detected minima but only one detected maximum:
passes the two-minima check, then the span loop reads `maximaIndex[1]` out of
range. -/
def d9 : HystData :=
  { time := [], voltage := [3, 0, 3, 0, 3, 3], current := [],
    polarization := [0, 0, 0, 0, 0, 0], dt := 1, thickness := 1, area := 1 }

/-- A single capacitance-extraction sample: mean |dV/dt| = 2, median |I| = 3. -/
def c8Sample : HystData :=
  { time := [], voltage := [0, 2], current := [3], polarization := [],
    dt := 1, thickness := 1, area := 1 }

/-- Capacitance-extraction sample with mean |dV/dt| = 1, median |I| = 2. -/
def c8A : HystData :=
  { time := [], voltage := [0, 1], current := [2], polarization := [],
    dt := 1, thickness := 1, area := 1 }

/-- Capacitance-extraction sample with mean |dV/dt| = 3, median |I| = 6. -/
def c8B : HystData :=
  { time := [], voltage := [0, 3], current := [6], polarization := [],
    dt := 1, thickness := 1, area := 1 }

/-- Film with capacitance 2 for the compensation threshold example. -/
def c3Film : LandauFilm := { thickness := 1, area := 1, c := 2, pr := 0 }

/-- Sample with `icap = 2 * mean(|diff([0,1])/1|) = 2` and currents
`[5, -3, 1, 0]`, compensated to `[3, -1, 0, 0]`. -/
def c3Data : HystData :=
  { time := [], voltage := [0, 1], current := [5, -3, 1, 0], polarization := [],
    dt := 1, thickness := 1, area := 1 }

/-- Film of area 6 and pr 5 for the domain-generation example. -/
def c6Film : LandauFilm := { thickness := 1, area := 6, c := 0, pr := 5 }

/-- E axis of the single-cell FORC grid. -/
def c6E : List ℚ := [10, 20]

/-- Er axis of the single-cell FORC grid. -/
def c6Er : List ℚ := [100, 200]

/-- Density grid whose only nonzero cell has flat index 2
(E column 0, Er row 1). -/
def c6Prob : List (List ℚ) := [[0, 0], [1, 0]]

/-- Three draws, necessarily all of flat index 2. -/
def c6Draws : List ℕ := [2, 2, 2]

/-- Masked mixed-partial grid with total absolute sum 4. -/
def gEx : List (List (Option ℚ)) := [[some 1, none], [some (-3), some 0]]

/-- Fit leakage coefficients `f(x) = x + 2`. -/
def c4Parms : LcmParms := { a := 0, b := 0, c := 0, d := 0, e := 1, f := 2, g := 0 }

/-- Leakage data in the fit state. -/
def c4Leak : LeakageData :=
  { lcmVoltage := [], lcmCurrent := [], lcmParms := some c4Parms }

/-- Leakage data in the unfit state (`lcmParms == []`). -/
def c7Leak : LeakageData := { lcmVoltage := [], lcmCurrent := [], lcmParms := none }

/-- Hysteresis sample for the leakage-compensation examples. -/
def c4Data : HystData :=
  { time := [], voltage := [0, 1, 2], current := [5, 7, 9],
    polarization := [0, 0, 0], dt := 1, thickness := 1, area := 1 }

/-! Helper lemmas. -/

lemma getD_map_of_lt {α β : Type} (l : List α) (f : α → β) (dα : α) (dβ : β)
    (i : ℕ) (hi : i < l.length) : (l.map f).getD i dβ = f (l.getD i dα) := by
  rw [List.getD_eq_getElem _ _ (by simpa using hi), List.getD_eq_getElem _ _ hi,
    List.getElem_map]

lemma getD_zipWith_of_lt {α β γ : Type} (f : α → β → γ) (l1 : List α) (l2 : List β)
    (d1 : α) (d2 : β) (dg : γ) (i : ℕ) (h1 : i < l1.length) (h2 : i < l2.length) :
    (List.zipWith f l1 l2).getD i dg = f (l1.getD i d1) (l2.getD i d2) := by
  rw [List.getD_eq_getElem _ _ (by rw [List.length_zipWith]; omega),
    List.getD_eq_getElem _ _ h1, List.getD_eq_getElem _ _ h2, List.getElem_zipWith]

lemma sum_map_sub (l : List ℚ) (m : ℚ) :
    (l.map (fun x => x - m)).sum = l.sum - (l.length : ℚ) * m := by
  induction l with
  | nil => simp
  | cons a t ih =>
    simp only [List.map_cons, List.sum_cons, ih, List.length_cons]
    push_cast
    ring

lemma mean_center_zero (l : List ℚ) : mean (l.map (fun x => x - mean l)) = 0 := by
  have h1 : (l.map (fun x => x - mean l)).sum = 0 := by
    rcases eq_or_ne l [] with rfl | hne
    · simp
    · have hn : (l.length : ℚ) ≠ 0 := by
        have : l.length ≠ 0 := fun h => hne (List.length_eq_zero.mp h)
        exact_mod_cast this
      rw [sum_map_sub]
      unfold mean
      field_simp
  calc mean (l.map (fun x => x - mean l))
      = (l.map (fun x => x - mean l)).sum /
          (((l.map (fun x => x - mean l)).length : ℕ) : ℚ) := rfl
    _ = 0 := by rw [h1, zero_div]

lemma dvdtOf_nonneg (d : HystData) : 0 ≤ dvdtOf d := by
  unfold dvdtOf mean
  apply div_nonneg _ (Nat.cast_nonneg _)
  apply List.sum_nonneg
  intro x hx
  obtain ⟨y, _, rfl⟩ := List.mem_map.mp hx
  exact abs_nonneg _

lemma forcTotal_nonneg (g : List (List (Option ℚ))) : 0 ≤ forcTotal g := by
  unfold forcTotal
  apply List.sum_nonneg
  intro x hx
  obtain ⟨row, _, rfl⟩ := List.mem_map.mp hx
  apply List.sum_nonneg
  intro y hy
  obtain ⟨c, _, rfl⟩ := List.mem_map.mp hy
  cases c with
  | none => exact le_refl 0
  | some q => exact abs_nonneg q

lemma row_norm_sum (row : List (Option ℚ)) (t : ℚ) :
    ((row.map (Option.map (fun x => |x| / t))).map cellVal).sum =
      (row.map cellAbs).sum / t := by
  induction row with
  | nil => simp
  | cons c r ih =>
    cases c with
    | none => simpa [cellVal, cellAbs, add_div] using ih
    | some q => simpa [cellVal, cellAbs, add_div] using ih

lemma grid_norm_sum (g : List (List (Option ℚ))) (t : ℚ) :
    ((g.map (fun row => row.map (Option.map (fun x => |x| / t)))).map
        (fun row => (row.map cellVal).sum)).sum =
      (g.map (fun row => (row.map cellAbs).sum)).sum / t := by
  induction g with
  | nil => simp
  | cons row rest ih =>
    simp only [List.map_cons, List.sum_cons, ih, row_norm_sum, add_div]

lemma forcSegsFrom_overrun (voltage pol : List ℚ) (maxs : List ℕ) :
    ∀ (mins : List ℕ) (i : ℕ), mins ≠ [] → maxs.length ≤ i + mins.length →
      forcSegsFrom voltage pol maxs i mins = Except.error indexErrMsg := by
  intro mins
  induction mins with
  | nil => intro i h _; exact absurd rfl h
  | cons v rest ih =>
    intro i _ hle
    simp only [forcSegsFrom]
    split
    · rfl
    · rename_i m hget
      have hlt : i + 1 < maxs.length := by
        by_contra hge
        rw [List.get?_eq_none.mpr (by omega)] at hget
        cases hget
      have hrest : rest ≠ [] := by
        intro hnil
        subst hnil
        simp only [List.length_cons, List.length_nil] at hle
        omega
      rw [ih (i + 1) hrest (by simp only [List.length_cons] at hle ⊢; omega)]

lemma preisachFrom_ne_ambiguous (film : LandauFilm) (esweep : List ℚ)
    (doms : List LandauDomain) (st : List ℚ) :
    calcEfePreisachFrom film esweep doms st ≠ Except.error ambiguousTruthMsg := by
  unfold calcEfePreisachFrom
  split
  · intro h
    exact absurd (Except.error.inj h) (by decide)
  · split
    · intro h
      exact absurd (Except.error.inj h) (by decide)
    · intro h
      exact Except.noConfusion h

/-! Claim theorems. -/

/-- C4: for every hysteresis sample compensated against a fit leakage model by
leakage_compensation, the corrected current array of the returned sample has
mean exactly zero, because after subtracting the modelled leakage
`f(voltage[j])` from each `current[j]` the mean of the residual is subtracted
from every sample. -/
theorem C4_leakage_compensated_mean_zero (d : HystData) (ld : LeakageData)
    (p : LcmParms) (hp : ld.lcmParms = some p) :
    mean ((leakage_compensation d ld).1.current) = 0 := by
  unfold leakage_compensation
  rw [hp]
  exact mean_center_zero _

/-- C4 witness: the claim instantiated on a concrete fit model and sample. -/
theorem C4_witness : mean ((leakage_compensation c4Data c4Leak).1.current) = 0 :=
  C4_leakage_compensated_mean_zero c4Data c4Leak c4Parms rfl

/-- C7: calling leakage_compensation with an unfit leakage model (empty
coefficient list) is a no-op that issues a recoverable warning and returns the
input sample unchanged; it never raises (the embedding is a total function)
and never modifies the sample's arrays. -/
theorem C7_unfit_leakage_noop (d : HystData) (ld : LeakageData)
    (h : ld.lcmParms = none) :
    (leakage_compensation d ld).1 = d ∧
      (leakage_compensation d ld).2 = [lcmFitWarning] := by
  unfold leakage_compensation
  rw [h]
  exact ⟨rfl, rfl⟩

/-- C7 witness: the claim instantiated on a concrete unfit model. -/
theorem C7_witness :
    (leakage_compensation c4Data c7Leak).1 = c4Data ∧
      (leakage_compensation c4Data c7Leak).2 = [lcmFitWarning] :=
  C7_unfit_leakage_noop c4Data c7Leak rfl

/-- C2: every entry of the normalized FORC density grid is nonnegative, and the
sum of the density over all non-masked cells equals 1, because the density is
`|mixed_partial|` divided by the sum of `|mixed_partial|` over non-masked cells
(the hypothesis says that sum is nonzero, i.e. the division defining the
density is well defined). -/
theorem C2_forc_density_pmf (g : List (List (Option ℚ))) (h : forcTotal g ≠ 0) :
    (∀ row ∈ normalizeFORC g, ∀ cell ∈ row, ∀ q : ℚ, cell = some q → 0 ≤ q) ∧
      maskedSum (normalizeFORC g) = 1 := by
  have ht : 0 ≤ forcTotal g := forcTotal_nonneg g
  constructor
  · intro row hrow cell hcell q hq
    obtain ⟨row0, _, rfl⟩ := List.mem_map.mp hrow
    obtain ⟨c0, _, rfl⟩ := List.mem_map.mp hcell
    cases c0 with
    | none => cases hq
    | some x =>
      have : |x| / forcTotal g = q := by simpa using hq
      rw [← this]
      exact div_nonneg (abs_nonneg x) ht
  · unfold maskedSum normalizeFORC
    rw [List.map_map]
    calc ((g.map ((fun row => (row.map cellVal).sum) ∘
            (fun row => row.map (Option.map (fun x => |x| / forcTotal g))))).sum)
        = ((g.map (fun row => row.map (Option.map (fun x => |x| / forcTotal g)))).map
            (fun row => (row.map cellVal).sum)).sum := by rw [List.map_map]
      _ = (g.map (fun row => (row.map cellAbs).sum)).sum / forcTotal g :=
          grid_norm_sum g (forcTotal g)
      _ = 1 := div_self h

/-- C2 witness: the normalized density of the concrete masked grid `gEx`
(whose absolute total is 4) sums to 1 over the non-masked cells. -/
theorem C2_witness : maskedSum (normalizeFORC gEx) = 1 :=
  (C2_forc_density_pmf gEx (by norm_num [forcTotal, gEx, cellAbs])).2

/-- C10: passing calcEfePreisach an initState array with more than one element
makes the sentinel check `initState == None` raise a numpy ValueError (the
truth value of a multi-element boolean array is ambiguous) instead of
continuing the sweep; only `initState = None` or a single-element state avoids
this error branch. -/
theorem C10_initstate_array_raises :
    (∀ (film : LandauFilm) (esweep : List ℚ) (doms : List LandauDomain)
        (s : List ℚ), 2 ≤ s.length →
        calcEfePreisach film esweep doms (some s) = Except.error ambiguousTruthMsg) ∧
      (∀ (film : LandauFilm) (esweep : List ℚ) (doms : List LandauDomain),
        calcEfePreisach film esweep doms none ≠ Except.error ambiguousTruthMsg) ∧
      (∀ (film : LandauFilm) (esweep : List ℚ) (doms : List LandauDomain) (x : ℚ),
        calcEfePreisach film esweep doms (some [x]) ≠
          Except.error ambiguousTruthMsg) := by
  refine ⟨?_, ?_, ?_⟩
  · intro film esweep doms s hs
    simp [calcEfePreisach, hs]
  · intro film esweep doms
    exact preisachFrom_ne_ambiguous film esweep doms _
  · intro film esweep doms x
    have h : calcEfePreisach film esweep doms (some [x]) =
        calcEfePreisachFrom film esweep doms [x] := by
      simp [calcEfePreisach]
    rw [h]
    exact preisachFrom_ne_ambiguous film esweep doms _

/-- C10 witness: a concrete two-element initState triggers the ValueError. -/
theorem C10_witness :
    calcEfePreisach squareFilm [] [] (some [1, 2]) = Except.error ambiguousTruthMsg :=
  C10_initstate_array_raises.1 squareFilm [] [] [1, 2] (by decide)

/-- C3: every capacitance-compensated current sample satisfies
`|I_out| = max 0 (|I_in| - icap)` with `icap = c * mean(|dV/dt|)`; when the
output is nonzero its sign agrees with the input's (the hypothesis `0 ≤ c`
makes the floor a genuine nonnegative capacitive floor, as the claim assumes). -/
theorem C3_cap_compensation_threshold (film : LandauFilm) (d : HystData)
    (hc : 0 ≤ film.c) (j : ℕ) (hj : j < d.current.length) :
    |((cCompensation film d).1.current).getD j 0| =
        max 0 (|d.current.getD j 0| - icapOf film d) ∧
      (((cCompensation film d).1.current).getD j 0 ≠ 0 →
        sgn (((cCompensation film d).1.current).getD j 0) = sgn (d.current.getD j 0)) := by
  have hicap : 0 ≤ icapOf film d := mul_nonneg hc (dvdtOf_nonneg d)
  have hcur : (cCompensation film d).1.current =
      d.current.map
        (fun i => if icapOf film d ≤ |i| then i - sgn i * icapOf film d else 0) := rfl
  rw [hcur, getD_map_of_lt d.current _ 0 0 j hj]
  set t := icapOf film d with ht
  set i := d.current.getD j 0 with hi
  by_cases hge : t ≤ |i|
  · rw [if_pos hge]
    rcases lt_trichotomy i 0 with hlt | heq | hgt
    · have hs : sgn i = -1 := by simp [sgn, hlt]
      have habs : |i| = -i := abs_of_neg hlt
      have hge' : t ≤ -i := by rwa [habs] at hge
      have e1 : i - sgn i * t = i + t := by rw [hs]; ring
      rw [e1, habs]
      have hle0 : i + t ≤ 0 := by linarith
      refine ⟨?_, ?_⟩
      · rw [abs_of_nonpos hle0, max_eq_right (by linarith : (0 : ℚ) ≤ -i - t)]
        ring
      · intro hne
        have hlt2 : i + t < 0 := lt_of_le_of_ne hle0 hne
        simp [sgn, hlt2, hlt]
    · rw [heq] at hge
      have h0 : t = 0 := le_antisymm (by simpa using hge) hicap
      rw [heq, h0]
      constructor
      · simp [sgn]
      · intro hne
        exact absurd (by simp [sgn]) hne
    · have h1 : ¬ i < 0 := by linarith
      have hs : sgn i = 1 := by simp [sgn, h1, hgt.ne']
      have habs : |i| = i := abs_of_pos hgt
      have hge' : t ≤ i := by rwa [habs] at hge
      have e1 : i - sgn i * t = i - t := by rw [hs]; ring
      rw [e1, habs]
      have h0le : 0 ≤ i - t := by linarith
      refine ⟨?_, ?_⟩
      · rw [abs_of_nonneg h0le, max_eq_right h0le]
      · intro hne
        have hpos : 0 < i - t := lt_of_le_of_ne h0le (Ne.symm hne)
        have h2 : ¬ i - t < 0 := by linarith
        simp [sgn, h2, hpos.ne', h1, hgt.ne']
  · rw [if_neg hge]
    push_neg at hge
    refine ⟨?_, ?_⟩
    · rw [abs_zero, max_eq_left (by linarith : |i| - t ≤ 0)]
    · intro hne
      exact absurd rfl hne

/-- C3 witness: for the concrete film (c = 2) and sample (icap = 2), the first
current sample 5 is compensated to a value of absolute size
`max 0 (|5| - icap) = 3`. -/
theorem C3_witness :
    |((cCompensation c3Film c3Data).1.current).getD 0 0| =
      max 0 (|c3Data.current.getD 0 0| - icapOf c3Film c3Data) :=
  (C3_cap_compensation_threshold c3Film c3Data (by norm_num [c3Film]) 0
    (by norm_num [c3Data])).1

/-- C6: domainGen converts each drawn flat index `j` back to grid coordinates
via `E-column = j mod n_cols`, `Er-row = j div n_cols`, and builds a domain
with `ec = (E - Er)/2`, `ebias = (E + Er)/2`, `area = film area / n` and the
film's `pr` (first conjunct, an exact description of the produced list); and
when the density grid has exactly one nonzero cell, at flat index `k`, every
drawn index must be `k` (`np.random.choice` only returns indices of nonzero
probability, hypothesis `hdraw`), so every generated domain has the identical
`(ec, ebias)` determined by that cell's coordinates (second conjunct). -/
theorem C6_domain_gen_single_cell (film : LandauFilm) (e er : List ℚ)
    (prob : List (List ℚ)) (draws : List ℕ) (k : ℕ)
    (hdraw : ∀ j ∈ draws, prob.flatten.getD j 0 ≠ 0)
    (hk : ∀ j < prob.flatten.length, j ≠ k → prob.flatten.getD j 0 = 0) :
    (domainGen film e er prob draws).1 =
        draws.map (fun j =>
          { pr := film.pr,
            ec := (e.getD (j % prob.headI.length) 0 -
                    er.getD (j / prob.headI.length) 0) / 2,
            ebias := (e.getD (j % prob.headI.length) 0 +
                    er.getD (j / prob.headI.length) 0) / 2,
            area := film.area / (draws.length : ℚ) }) ∧
      ∀ i < draws.length,
        ((domainGen film e er prob draws).1.getD i dDomain).ec =
            (e.getD (k % prob.headI.length) 0 -
              er.getD (k / prob.headI.length) 0) / 2 ∧
          ((domainGen film e er prob draws).1.getD i dDomain).ebias =
            (e.getD (k % prob.headI.length) 0 +
              er.getD (k / prob.headI.length) 0) / 2 ∧
          ((domainGen film e er prob draws).1.getD i dDomain).area =
            film.area / (draws.length : ℚ) ∧
          ((domainGen film e er prob draws).1.getD i dDomain).pr = film.pr := by
  refine ⟨rfl, ?_⟩
  intro i hi
  have hmem : draws.getD i 0 ∈ draws := by
    rw [List.getD_eq_getElem _ _ hi]
    exact List.getElem_mem _
  have hjk : draws.getD i 0 = k := by
    by_contra hne
    rcases Nat.lt_or_ge (draws.getD i 0) prob.flatten.length with hl | hg
    · exact hdraw _ hmem (hk _ hl hne)
    · exact hdraw _ hmem (List.getD_eq_default _ _ hg)
  have hD : (domainGen film e er prob draws).1.getD i dDomain =
      { pr := film.pr,
        ec := (e.getD (draws.getD i 0 % prob.headI.length) 0 -
                er.getD (draws.getD i 0 / prob.headI.length) 0) / 2,
        ebias := (e.getD (draws.getD i 0 % prob.headI.length) 0 +
                er.getD (draws.getD i 0 / prob.headI.length) 0) / 2,
        area := film.area / (draws.length : ℚ) } :=
    getD_map_of_lt draws _ 0 dDomain i hi
  rw [hD, hjk]
  exact ⟨rfl, rfl, rfl, rfl⟩

/-- C6 witness: for the concrete single-nonzero-cell grid (flat index 2) the
first generated domain's coercive field is the one determined by that cell. -/
theorem C6_witness :
    ((domainGen c6Film c6E c6Er c6Prob c6Draws).1.getD 0 dDomain).ec =
      (c6E.getD (2 % c6Prob.headI.length) 0 - c6Er.getD (2 / c6Prob.headI.length) 0) / 2 :=
  ((C6_domain_gen_single_cell c6Film c6E c6Er c6Prob c6Draws 2
      (by decide) (by decide)).2 0 (by decide)).1

set_option maxRecDepth 8000

/-- C1: first conjunct, the per-step update rule of the Preisach simulator: at
each step a domain's state flips to +1 when the local sweep direction is
positive and the field is at least `ec + ebias`, flips to -1 when the direction
is negative and the field is at most `-ec + ebias`, and is otherwise unchanged.
Second and third conjuncts: the concrete square-loop scenario — a single
domain with `ec = 1`, `ebias = 0`, `pr = 1`, swept from -2 to +2 and back,
starts at -1, switches to +1 exactly when the field first reaches +1 on the
upsweep and back to -1 exactly when the field first reaches -1 on the
downsweep; on a minor loop that peaks at +1/2 no switching occurs at all. -/
theorem C1_preisach_hysteresis :
    (∀ (doms : List LandauDomain) (st : List ℚ) (e dir : ℚ) (i : ℕ),
        i < doms.length → i < st.length →
        (preisachStep doms e dir st).getD i 0 =
          (if 0 < dir then
            (if (doms.getD i dDomain).ec + (doms.getD i dDomain).ebias ≤ e then 1
             else st.getD i 0)
           else if dir < 0 then
            (if e ≤ -(doms.getD i dDomain).ec + (doms.getD i dDomain).ebias then -1
             else st.getD i 0)
           else st.getD i 0)) ∧
      calcEfePreisach squareFilm squareSweep [squareDomain] none =
        Except.ok (squareP, [-1]) ∧
      calcEfePreisach squareFilm minorSweep [squareDomain] none =
        Except.ok (List.replicate 11 (-1), [-1]) := by
  refine ⟨?_, ?_, ?_⟩
  · intro doms st e dir i hd hs
    unfold preisachStep
    rw [getD_zipWith_of_lt _ doms st dDomain 0 0 i hd hs]
  · norm_num [calcEfePreisach, calcEfePreisachFrom, preisachRun, preisachStep,
      filmCharge, npGradient, npGradientAux, squareFilm, squareDomain,
      squareSweep, squareP]
  · norm_num [calcEfePreisach, calcEfePreisachFrom, preisachRun, preisachStep,
      filmCharge, npGradient, npGradientAux, squareFilm, squareDomain,
      minorSweep, List.replicate]

/-- C1 witness: the step rule applied at a concrete input — a positive-direction
step at field 2 against the threshold `ec + ebias = 1` flips the state to +1. -/
theorem C1_witness : (preisachStep [squareDomain] 2 1 [-1]).getD 0 0 = 1 := by
  have h := C1_preisach_hysteresis.1 [squareDomain] [-1] 2 1 0
    (by decide) (by decide)
  rw [h]
  norm_num [squareDomain]

/-- C5 counterexample: for the concrete measurement `forcEx` (thickness 1) the
first reversal span's assigned Er value is 2 — the field of the sample at index
`minimum - 1` — whereas the field at the first detected voltage minimum (index
2) is -1, so the Er assigned to the span does NOT equal the field at the
minimum, contradicting the claim. -/
theorem C5_counterexample :
    (forc_calc_spans forcEx).toOption.map (fun r => r.2.1.getD 0 0) = some 2 ∧
      forcEx.voltage.getD ((findExtrema forcEx.voltage).1.getD 0 0) 0 /
        forcEx.thickness = -1 ∧
      (2 : ℚ) ≠ -1 := by
  have h1 : findExtrema forcEx.voltage = ([2, 4], [1, 3, 5]) := by decide
  have h2 : forcSegsFrom forcEx.voltage forcEx.polarization [1, 3, 5] 0 [2, 4] =
      Except.ok segsEx := by decide
  have h3 : forcEx.thickness = 1 := rfl
  refine ⟨?_, ?_, by norm_num⟩
  · simp only [forc_calc_spans, h1]
    norm_num [h2, h3, segsEx, Except.toOption]
  · rw [h1, h3]
    norm_num [forcEx]

/-- C5 amended: in every reversal-curve span emitted by the forc_calc span
loop, every assigned reversal-voltage entry equals the voltage of the sample
immediately PRECEDING that span's minimum (`voltage[min_index - 1]`, not the
voltage at the minimum itself), and is therefore constant along the whole span;
the reversal field Er is this constant divided by the thickness. -/
theorem C5_amended_span_er (voltage pol : List ℚ) (maxs mins : List ℕ) (i0 : ℕ)
    (segs : List Span) (h : forcSegsFrom voltage pol maxs i0 mins = Except.ok segs)
    (k : ℕ) (hk : k < segs.length) :
    ∀ x ∈ (segs.getD k dSpan).vr, x = voltage.getD (mins.getD k 0 - 1) 0 := by
  induction mins generalizing i0 segs k with
  | nil =>
    simp only [forcSegsFrom] at h
    cases h
    simp at hk
  | cons v rest ih =>
    simp only [forcSegsFrom] at h
    split at h
    · cases h
    · rename_i m hget
      split at h
      · cases h
      · rename_i tail hrec
        cases h
        cases k with
        | zero =>
          intro x hx
          simp only [List.getD_cons_zero] at hx ⊢
          exact List.eq_of_mem_replicate hx
        | succ n =>
          intro x hx
          simp only [List.getD_cons_succ] at hx ⊢
          exact ih (i0 + 1) tail hrec n (by simpa using hk) x hx

/-- C5 witness: the amended claim applied at the concrete data — the single
entry 2 of the first span's reversal segment equals `voltage[mins[0] - 1]`. -/
theorem C5_witness :
    (2 : ℚ) = forcEx.voltage.getD (c5Mins.getD 0 0 - 1) 0 :=
  C5_amended_span_er forcEx.voltage forcEx.polarization c5Maxs c5Mins 0 segsEx
    (by decide) 0 (by decide) 2 (by decide)

/-- C9: forc_calc is not total — whenever the voltage sweep has at least two
detected local minima (so the explicit check passes) but the number of detected
local maxima is at most the number of detected minima, the span-construction
loop reads `maximaIndex[i+1]` out of range and the operation fails with an
uncaught IndexError. -/
theorem C9_forc_calc_not_total (d : HystData)
    (h2 : 2 ≤ (findExtrema d.voltage).1.length)
    (hle : (findExtrema d.voltage).2.length ≤ (findExtrema d.voltage).1.length) :
    forc_calc_spans d = Except.error indexErrMsg := by
  unfold forc_calc_spans
  rw [if_neg (by omega)]
  rw [forcSegsFrom_overrun d.voltage d.polarization (findExtrema d.voltage).2
      (findExtrema d.voltage).1 0
      (by intro hnil; rw [hnil] at h2; simp at h2)
      (by simpa using hle)]

/-- C9 witness: the sweep `[3, 0, 3, 0, 3, 3]` has two detected minima but only
one detected maximum, and forc_calc fails with the IndexError. -/
theorem C9_witness : forc_calc_spans d9 = Except.error indexErrMsg :=
  C9_forc_calc_not_total d9 (by decide) (by decide)

/-- C8 amended: cCalc computes the capacitance as the slope of a degree-1
least-squares fit of median absolute current against mean absolute dV/dt (first
conjunct, for any input set whose dV/dt values are not all equal); but for a
single sample the computation is NOT aborted: np.polyfit's rank-deficient
branch emits only a non-fatal RankWarning and cCalc still returns the
minimum-norm slope `medI / (2 * dvdt)` (second conjunct). -/
theorem C8_ccalc_regression_no_abort :
    (∀ files : List HystData, sxxOf (files.map dvdtOf) ≠ 0 →
        cCalc files = lsSlope (files.map dvdtOf) (files.map medAbsI)) ∧
      ∀ d : HystData, cCalc [d] = medAbsI d / (2 * dvdtOf d) := by
  constructor
  · intro files hs
    unfold cCalc polyfit1_slope
    rw [if_neg hs]
  · intro d
    unfold cCalc polyfit1_slope
    have h0 : sxxOf ([d].map dvdtOf) = 0 := by
      simp [sxxOf, mean]
    rw [if_pos h0]
    simp [mean]

/-- C8 counterexample: on a single concrete sample (mean |dV/dt| = 2, median
|I| = 3) cCalc does not abort; it returns the degenerate slope 3/4. -/
theorem C8_counterexample : cCalc [c8Sample] = 3 / 4 := by
  norm_num [cCalc, polyfit1_slope, sxxOf, lsSlope, mean, medAbsI, median,
    dvdtOf, diffL, c8Sample, List.insertionSort, List.orderedInsert]

/-- C8 witness: the regression conjunct applied to two concrete samples with
distinct dV/dt (1 and 3, median currents 2 and 6) gives slope 2. -/
theorem C8_witness : cCalc [c8A, c8B] = 2 := by
  have h := C8_ccalc_regression_no_abort.1 [c8A, c8B]
    (by norm_num [sxxOf, mean, dvdtOf, diffL, c8A, c8B])
  rw [h]
  norm_num [lsSlope, sxxOf, mean, dvdtOf, medAbsI, median, diffL, c8A, c8B,
    List.insertionSort, List.orderedInsert]

end Ferro
